import Mathlib

/-!
Verification development for the EqMod equation-extraction and composite
rendering pipeline.

The Python sources are shallowly embedded as executable Lean definitions:

* `utils/image_utils.py`   — bitmap emptiness test, crop/downscale policy
  (`count_non_transparent_pixels`, `is_image_empty`, the downscale block
  shared by `render_latex_matplotlib` and `render_latex_standalone`).
* `utils/clipboard_utils.py` — CF_HTML payload construction
  (`set_clipboard_html`) and `validate_base64`.
* `utils/latex_utils.py`   — the five-grammar equation scanner
  (`find_latex_equations`), embedding `re.finditer` semantics for the
  literal-delimited non-greedy patterns it uses.
* `gui/app_gui.py`         — the fragment composer (`copy_images`).

Python strings are modelled as `List Char`; byte strings as `List Nat`
(each element < 256).  Python `int()` truncation of positive float
ratios is modelled by natural-number floor division (all divisions the
theorems touch are exact, so no floating-point rounding is visible).
-/

/-! ### Bitmaps (`utils/image_utils.py`)

A PIL RGBA image is modelled by its declared size, its RGBA pixel
sequence, and the PNG serialization that `image.save(buffer, 'PNG')`
would produce for it.  `image_to_bytes` is then projection onto that
serialized form. -/

structure Bitmap where
  width : Nat
  height : Nat
  /-- RGBA pixel values, flattened; the fourth component is alpha. -/
  pixels : List (Nat × Nat × Nat × Nat)
  /-- The PNG serialization of the image (`image_to_bytes`). -/
  pngBytes : List Nat
deriving DecidableEq

/-- `image_to_bytes` (image_utils.py:10-16): serialize the image to PNG. -/
def image_to_bytes (img : Bitmap) : List Nat := img.pngBytes

/-- `count_non_transparent_pixels` (image_utils.py:18-26):
`np.sum(alpha_channel > 0)` over the RGBA data. -/
def count_non_transparent_pixels (img : Bitmap) : Nat :=
  (img.pixels.filter (fun p => 0 < p.2.2.2)).length

/-- `is_image_empty` (image_utils.py:28-31): fewer than 100
non-transparent pixels. -/
def is_image_empty (img : Bitmap) : Bool :=
  count_non_transparent_pixels img < 100

/-- The final emptiness gate of both renderers
(image_utils.py:90-93 and 177-179): a rendered image is discarded
(`None`) when `is_image_empty` holds, otherwise returned. -/
def renderEmptyGate (img : Bitmap) : Option Bitmap :=
  if is_image_empty img then none else some img

/-- The downscale block shared by `render_latex_matplotlib`
(image_utils.py:75-85) and `render_latex_standalone`
(image_utils.py:161-171), at the level of the image dimensions:

```
max_width = 1800; max_height = 600
if img.width > max_width or img.height > max_height:
    aspect_ratio = img.width / img.height if img.height > 0 else 1
    if img.width > max_width:
        new_width = max_width ; new_height = int(new_width / aspect_ratio)
    else:
        new_height = max_height ; new_width = int(aspect_ratio * new_height)
```

`int(1800 / (w/h))` and `int((w/h) * 600)` are modelled as the exact
floors `1800*h/w` and `600*w/h`. -/
def resizeDims (w h : Nat) : Nat × Nat :=
  if 1800 < w ∨ 600 < h then
    if 1800 < w then
      (1800, if 0 < h then 1800 * h / w else 1800)
    else
      ((if 0 < h then 600 * w / h else 600), 600)
  else (w, h)

/-! ### C6 and C7 theorems -/

/-- **C6 (counterexample).** The claim says any over-limit crop is
downscaled so that both `width ≤ 1800` and `height ≤ 600` hold.  A
2000×1000 crop triggers the width branch only and becomes 1800×900,
violating the height bound. -/
theorem c6_counterexample :
    ¬ ((resizeDims 2000 1000).1 ≤ 1800 ∧ (resizeDims 2000 1000).2 ≤ 600) := by
  decide

/-- **C6 (amended).** The downscale is width-first: a crop wider than
1800 px is scaled to width exactly 1800 with height `⌊1800·h/w⌋`, which
can still exceed 600; only when `w ≤ 1800` and `h > 600` is the image
scaled to height 600.  The width bound `≤ 1800` always holds for the
result, the height bound does not. -/
theorem c6_amended (w h : Nat) :
    (resizeDims w h).1 ≤ 1800
    ∧ (1800 < w → (resizeDims w h).2 = (if 0 < h then 1800 * h / w else 1800))
    ∧ (w ≤ 1800 → 600 < h → (resizeDims w h).2 = 600)
    ∧ (w ≤ 1800 → h ≤ 600 → resizeDims w h = (w, h)) := by
  refine ⟨?_, ?_, ?_, ?_⟩
  · by_cases hw : 1800 < w
    · simp [resizeDims, hw]
    · by_cases hh : 600 < h
      · have hne : ¬ (1800 < w) := hw
        have h0 : 0 < h := Nat.lt_of_lt_of_le (by norm_num) (Nat.le_of_lt hh)
        simp only [resizeDims, hne, hh, or_true, if_true, if_false, h0]
        have h601 : 601 ≤ h := hh
        calc 600 * w / h ≤ 600 * 1800 / h := by
              exact Nat.div_le_div_right (Nat.mul_le_mul_left 600 (Nat.le_of_not_lt hw))
          _ ≤ 600 * 1800 / 601 := Nat.div_le_div_left h601 (by norm_num)
          _ ≤ 1800 := by norm_num
      · simp [resizeDims, hw, hh]; omega
  · intro hw
    simp [resizeDims, hw]
  · intro hw hh
    have hne : ¬ (1800 < w) := by omega
    simp [resizeDims, hne, hh]
  · intro hw hh
    have h1 : ¬ (1800 < w) := by omega
    have h2 : ¬ (600 < h) := by omega
    simp [resizeDims, h1, h2]

/-- Witness for `c6_amended`: a 2000×1000 crop becomes 1800×900 (width
branch), a 900×700 crop becomes height 600 (height branch), and a
1000×500 crop is untouched. -/
theorem c6_witness :
    (resizeDims 2000 1000).2 = 900
    ∧ (resizeDims 900 700).2 = 600
    ∧ resizeDims 1000 500 = (1000, 500) := by
  refine ⟨?_, ?_, ?_⟩
  · have h := (c6_amended 2000 1000).2.1 (by decide)
    simpa using h
  · exact (c6_amended 900 700).2.2.1 (by decide) (by decide)
  · exact (c6_amended 1000 500).2.2.2 (by decide) (by decide)

/-- **C7 (confirmed).** Any bitmap with fewer than 100 non-transparent
pixels — whatever its declared width and height — is classified empty
and the renderer returns `None` instead of it. -/
theorem c7_empty_render_failure (img : Bitmap)
    (h : count_non_transparent_pixels img < 100) :
    renderEmptyGate img = none := by
  have : is_image_empty img = true := by
    simpa [is_image_empty] using h
  simp [renderEmptyGate, this]

/-- Witness for `c7_empty_render_failure`: a 500×500 bitmap with only 5
non-transparent pixels is rejected. -/
theorem c7_witness :
    count_non_transparent_pixels
        ⟨500, 500, List.replicate 5 (255, 255, 255, 255), [1, 2, 3]⟩ < 100
    ∧ renderEmptyGate
        ⟨500, 500, List.replicate 5 (255, 255, 255, 255), [1, 2, 3]⟩ = none := by
  refine ⟨by decide, c7_empty_render_failure _ (by decide)⟩

/-! ### Clipboard payload encoder (`utils/clipboard_utils.py`, `set_clipboard_html`)

`set_clipboard_html` builds the CF_HTML payload with

```
html_header = ("Version:0.9\r\n" "StartHTML:0000000105\r\n" "EndHTML:{:010d}\r\n"
               "StartFragment:0000000141\r\n" "EndFragment:{:010d}\r\n"
               "<html><body>\r\n" "<!--StartFragment-->{}<!--EndFragment-->\r\n"
               "</body></html>")
full_html = html_header.format(
    len(html_header) + len(fragment),
    len(html_header) + len(fragment) - len("<!--EndFragment-->\r\n</body></html>"),
    fragment)
html_bytes = full_html.encode('utf-8')
```

Note that `len(html_header)` is the length of the UNformatted template
(169 characters, placeholders included), and `len(...)` counts
characters, not UTF-8 bytes. -/

/-- UTF-8 encoding of one character. -/
def utf8Bytes (c : Char) : List Nat :=
  let n := c.toNat
  if n < 128 then [n]
  else if n < 2048 then [192 + n / 64, 128 + n % 64]
  else if n < 65536 then [224 + n / 4096, 128 + n / 64 % 64, 128 + n % 64]
  else [240 + n / 262144, 128 + n / 4096 % 64, 128 + n / 64 % 64, 128 + n % 64]

/-- UTF-8 encoding of a string (`str.encode('utf-8')`). -/
def utf8Encode : List Char → List Nat
  | [] => []
  | c :: rest => utf8Bytes c ++ utf8Encode rest

/-- The pieces of `html_header`, split at the two `{:010d}` placeholders
and the `{}` fragment slot. -/
def clipHeaderPiece1 : String := "Version:0.9\r\nStartHTML:0000000105\r\nEndHTML:"

def clipPlaceholder : String := "\x7b:010d\x7d"

def clipHeaderPiece2 : String := "\r\nStartFragment:0000000141\r\nEndFragment:"

def clipHeaderPiece3 : String := "\r\n<html><body>\r\n<!--StartFragment-->"

def clipFragmentSlot : String := "\x7b\x7d"

/-- `"<!--EndFragment-->\r\n</body></html>"`, the literal whose length is
subtracted when computing the `EndFragment` value. -/
def clipHeaderPiece4 : String := "<!--EndFragment-->\r\n</body></html>"

/-- The unformatted `html_header` template; `len(html_header)` in the
Python source is the length of this string (169). -/
def clipHeaderTemplate : String :=
  clipHeaderPiece1 ++ clipPlaceholder ++ clipHeaderPiece2 ++ clipPlaceholder
    ++ clipHeaderPiece3 ++ clipFragmentSlot ++ clipHeaderPiece4

/-- Python `"{:010d}".format(n)` for a non-negative value: decimal,
zero-padded on the left to width 10. -/
def pyFormat010 (n : Nat) : String :=
  let s := toString n
  String.mk (List.replicate (10 - s.length) '0') ++ s

/-- The `EndHTML` value the code computes:
`len(html_header) + len(fragment)` (character counts). -/
def clipEndHtml (fragment : String) : Nat :=
  clipHeaderTemplate.length + fragment.length

/-- The `EndFragment` value the code computes:
`len(html_header) + len(fragment) - len("<!--EndFragment-->\r\n</body></html>")`. -/
def clipEndFragment (fragment : String) : Nat :=
  clipHeaderTemplate.length + fragment.length - clipHeaderPiece4.length

/-- The `StartFragment` header field is the hard-coded literal
`StartFragment:0000000141`. -/
def clipStartFragment : Nat := 141

/-- The `StartHTML` header field is the hard-coded literal
`StartHTML:0000000105`. -/
def clipStartHtml : Nat := 105

/-- `full_html = html_header.format(endhtml, endfragment, fragment)`. -/
def clipFullHtml (fragment : String) : String :=
  clipHeaderPiece1 ++ pyFormat010 (clipEndHtml fragment)
    ++ clipHeaderPiece2 ++ pyFormat010 (clipEndFragment fragment)
    ++ clipHeaderPiece3 ++ fragment ++ clipHeaderPiece4

/-- `html_bytes = full_html.encode('utf-8')`: the bytes handed to
`SetClipboardData`. -/
def clipPayloadBytes (fragment : String) : List Nat :=
  utf8Encode (clipFullHtml fragment).data

/-- Python slice `bytes[a:b]`. -/
def byteSlice (bs : List Nat) (a b : Nat) : List Nat :=
  (bs.drop a).take (b - a)

set_option maxRecDepth 16384 in
/-- **C1 (bug evaluation).** For `fragment_html = "<p>hello</p>"` the
payload's fragment actually occupies bytes `[139, 151)`, but the header
claims `StartFragment = 141` and `EndFragment = 147`: the slice
`[StartFragment, EndFragment)` decodes to `">hello"`, not to the
original fragment.  (The code also sets `EndHTML = 181` although the
payload is 185 bytes long: every computed offset uses the length of the
unformatted template, 169, instead of the 173-character formatted
header+shell.) -/
theorem c1_offsets_bug_eval :
    byteSlice (clipPayloadBytes "<p>hello</p>") clipStartFragment
        (clipEndFragment "<p>hello</p>")
      = utf8Encode ">hello".data
    ∧ byteSlice (clipPayloadBytes "<p>hello</p>") clipStartFragment
        (clipEndFragment "<p>hello</p>")
      ≠ utf8Encode "<p>hello</p>".data
    ∧ byteSlice (clipPayloadBytes "<p>hello</p>") 139 151
      = utf8Encode "<p>hello</p>".data
    ∧ clipEndHtml "<p>hello</p>" = 181
    ∧ (clipPayloadBytes "<p>hello</p>").length = 185 := by
  decide

/-! ### `validate_base64` (`utils/clipboard_utils.py:76-87`)

```
base64_pattern = re.compile(r'^[A-Za-z0-9+/=]+$')
if not base64_pattern.match(data): return False
base64.b64decode(data, validate=True)
return True            # any exception is caught and returns False
```

`re.match` truthiness and `b64decode(validate=True)` (CPython 3.11+,
where `validate=True` invokes `binascii.a2b_base64` in strict mode) are
embedded below; the strict-mode acceptance rule was confirmed against
CPython 3.11.6. -/

/-- The standard base64 alphabet, in value order. -/
def b64Alphabet : List Char :=
  ['A', 'B', 'C', 'D', 'E', 'F', 'G', 'H', 'I', 'J', 'K', 'L', 'M',
   'N', 'O', 'P', 'Q', 'R', 'S', 'T', 'U', 'V', 'W', 'X', 'Y', 'Z',
   'a', 'b', 'c', 'd', 'e', 'f', 'g', 'h', 'i', 'j', 'k', 'l', 'm',
   'n', 'o', 'p', 'q', 'r', 's', 't', 'u', 'v', 'w', 'x', 'y', 'z',
   '0', '1', '2', '3', '4', '5', '6', '7', '8', '9', '+', '/']

/-- Membership in `[A-Za-z0-9+/]`. -/
def isB64AlphaChar (c : Char) : Bool := b64Alphabet.contains c

/-- Membership in the character class `[A-Za-z0-9+/=]` of the code's
regex. -/
def isB64PatternChar (c : Char) : Bool := isB64AlphaChar c || c == '='

/-- Helper for `reB64Match`: matches `[A-Za-z0-9+/=]*` optionally
followed by one final newline (Python `$` matches before a trailing
newline). -/
def reB64Tail : List Char → Bool
  | [] => true
  | c :: rest => (isB64PatternChar c && reB64Tail rest) || (c == '\n' && rest == [])

/-- Truthiness of `re.match(r'^[A-Za-z0-9+/=]+$', data)`: at least one
class character, then class characters up to the end or up to a single
trailing newline. -/
def reB64Match : List Char → Bool
  | [] => false
  | c :: rest => isB64PatternChar c && reB64Tail rest

/-- Value of an alphabet character (64 when not in the alphabet; only
used on alphabet characters). -/
def b64CharVal (c : Char) : Nat := b64Alphabet.indexOf c

/-- Byte content of a run of base64 data characters: full quads give
three bytes; a final pair or triple gives one or two bytes. -/
def b64DecodeQuads : List Char → List Nat
  | c1 :: c2 :: c3 :: c4 :: rest =>
      (b64CharVal c1 * 4 + b64CharVal c2 / 16)
        :: (b64CharVal c2 % 16 * 16 + b64CharVal c3 / 4)
        :: (b64CharVal c3 % 4 * 64 + b64CharVal c4)
        :: b64DecodeQuads rest
  | [c1, c2] => [b64CharVal c1 * 4 + b64CharVal c2 / 16]
  | [c1, c2, c3] =>
      [b64CharVal c1 * 4 + b64CharVal c2 / 16,
       b64CharVal c2 % 16 * 16 + b64CharVal c3 / 4]
  | _ => []

/-- `base64.b64decode(s, validate=True)` under CPython 3.11+: `none`
models a raised `binascii.Error`.  Any character outside
`[A-Za-z0-9+/=]` raises; `=` may appear only as one trailing run, not
first; with `w` data characters and `p` trailing pads the call succeeds
iff `w % 4 = 0` (any `p`, including extra pads), or `w % 4 = 2 ∧ p = 2`,
or `w % 4 = 3 ∧ p = 1`; the empty string decodes to the empty byte
string. -/
def pyB64DecodeStrict (s : List Char) : Option (List Nat) :=
  if s.all isB64PatternChar then
    let w := s.takeWhile (fun c => c != '=')
    let pads := s.drop w.length
    if pads.all (fun c => c == '=') then
      if w = [] then (if pads = [] then some [] else none)
      else if w.length % 4 = 0 then some (b64DecodeQuads w)
      else if w.length % 4 = 2 ∧ pads.length = 2 then some (b64DecodeQuads w)
      else if w.length % 4 = 3 ∧ pads.length = 1 then some (b64DecodeQuads w)
      else none
    else none
  else none

/-- `validate_base64` (clipboard_utils.py:76-87): regex check, then
`b64decode(..., validate=True)`; every exception path returns `False`.
No check of the decoded bytes is performed. -/
def validate_base64 (data : List Char) : Bool :=
  if reB64Match data then (pyB64DecodeStrict data).isSome else false

/-- `base64.b64encode` of a byte string (elements < 256), as ASCII
characters. -/
def b64EncodeBytes : List Nat → List Char
  | [] => []
  | [a] =>
      [b64Alphabet.getD (a / 4) 'A', b64Alphabet.getD (a % 4 * 16) 'A', '=', '=']
  | [a, b] =>
      [b64Alphabet.getD (a / 4) 'A', b64Alphabet.getD (a % 4 * 16 + b / 16) 'A',
       b64Alphabet.getD (b % 16 * 4) 'A', '=']
  | a :: b :: c :: rest =>
      b64Alphabet.getD (a / 4) 'A'
        :: b64Alphabet.getD (a % 4 * 16 + b / 16) 'A'
        :: b64Alphabet.getD (b % 16 * 4 + c / 64) 'A'
        :: b64Alphabet.getD (c % 64) 'A'
        :: b64EncodeBytes rest

/-- The PNG magic signature `\x89PNG\r\n\x1a\n`. -/
def pngSignature : List Nat := [137, 80, 78, 71, 13, 10, 26, 10]

/-! Auxiliary lemmas about the base64 embedding. -/

/-- Characters produced from the alphabet table are alphabet
characters, whatever the index. -/
theorem isB64AlphaChar_getD (i : Nat) :
    isB64AlphaChar (b64Alphabet[i]?.getD 'A') = true := by
  by_cases h : i < b64Alphabet.length
  · rw [List.getElem?_eq_getElem h]
    exact List.elem_eq_true_of_mem (List.getElem_mem h)
  · rw [List.getElem?_eq_none (Nat.le_of_not_lt h)]
    decide

/-- An all-class string satisfies the tail part of the regex. -/
theorem reB64Tail_of_all {s : List Char}
    (h : s.all isB64PatternChar = true) : reB64Tail s = true := by
  induction s with
  | nil => rfl
  | cons c rest ih =>
      simp only [List.all_cons, Bool.and_eq_true] at h
      simp [reB64Tail, h.1, ih h.2]

/-- A nonempty all-class string matches the regex. -/
theorem reB64Match_of_all {s : List Char} (hne : s ≠ [])
    (h : s.all isB64PatternChar = true) : reB64Match s = true := by
  cases s with
  | nil => exact absurd rfl hne
  | cons c rest =>
      simp only [List.all_cons, Bool.and_eq_true] at h
      simp [reB64Match, h.1, reB64Tail_of_all h.2]

/-- Every character the regex accepts is a class character or the one
permitted trailing newline. -/
theorem reB64Tail_chars {s : List Char} (h : reB64Tail s = true) :
    ∀ c ∈ s, isB64PatternChar c = true ∨ c = '\n' := by
  induction s with
  | nil => intro c hc; cases hc
  | cons a rest ih =>
      intro c hc
      simp only [reB64Tail, Bool.or_eq_true, Bool.and_eq_true, beq_iff_eq,
        List.cons.injEq] at h
      rcases h with ⟨ha, hrest⟩ | ⟨ha, hrest⟩
      · rcases List.mem_cons.mp hc with rfl | hc'
        · exact Or.inl ha
        · exact ih hrest c hc'
      · rcases List.mem_cons.mp hc with rfl | hc'
        · exact Or.inr ha
        · rw [hrest] at hc'; cases hc'

theorem reB64Match_chars {s : List Char} (h : reB64Match s = true) :
    ∀ c ∈ s, isB64PatternChar c = true ∨ c = '\n' := by
  cases s with
  | nil => intro c hc; cases hc
  | cons a rest =>
      simp only [reB64Match, Bool.and_eq_true] at h
      intro c hc
      rcases List.mem_cons.mp hc with rfl | hc'
      · exact Or.inl h.1
      · exact reB64Tail_chars h.2 c hc'

/-- **C10 (confirmed).** `validate_base64` returns `False` (it never
raises) on the empty string and on every string containing a character
outside `[A-Za-z0-9+/=]` — including whitespace and newlines.  (The only
such character that can survive the code's own `^...$` regex is a single
trailing newline, and `b64decode(..., validate=True)` then raises, which
the function catches and turns into `False`.) -/
theorem c10_invalid_input_false (s : List Char)
    (h : s = [] ∨ ∃ c ∈ s, isB64PatternChar c = false) :
    validate_base64 s = false := by
  rcases h with rfl | ⟨c, hc, hbad⟩
  · rfl
  · by_cases hm : reB64Match s = true
    · have hnl : c = '\n' := by
        rcases reB64Match_chars hm c hc with hgood | rfl
        · rw [hbad] at hgood; cases hgood
        · rfl
      subst hnl
      have hall : s.all isB64PatternChar = false := by
        by_contra hcon
        have : s.all isB64PatternChar = true := by
          cases hval : s.all isB64PatternChar
          · exact absurd hval hcon
          · rfl
        have := (List.all_eq_true.mp this) _ hc
        rw [hbad] at this; cases this
      simp [validate_base64, hm, pyB64DecodeStrict, hall]
    · simp [validate_base64, hm]

/-- Witness for `c10_invalid_input_false`: the string `"abc d\n"`
contains characters outside the class and is rejected. -/
theorem c10_witness : validate_base64 "abc d\n".data = false := by
  exact c10_invalid_input_false _ (Or.inr ⟨' ', by decide, by decide⟩)

/-- Alphabet characters are class characters. -/
theorem isB64PatternChar_of_alpha {c : Char}
    (h : isB64AlphaChar c = true) : isB64PatternChar c = true := by
  simp [isB64PatternChar, h]

/-- Shape of an encoder output: data characters followed by 0, 1 or 2
pads, with the matching residue of the data length modulo 4. -/
theorem b64EncodeBytes_shape (bytes : List Nat) :
    ∃ w pads, b64EncodeBytes bytes = w ++ pads
      ∧ w.all isB64AlphaChar = true
      ∧ ((pads = [] ∧ w.length % 4 = 0)
         ∨ (pads = ['='] ∧ w.length % 4 = 3)
         ∨ (pads = ['=', '='] ∧ w.length % 4 = 2)) := by
  induction bytes using b64EncodeBytes.induct with
  | case1 =>
      exact ⟨[], [], rfl, rfl, Or.inl ⟨rfl, rfl⟩⟩
  | case2 a =>
      refine ⟨[b64Alphabet.getD (a / 4) 'A', b64Alphabet.getD (a % 4 * 16) 'A'],
        ['=', '='], rfl, ?_, Or.inr (Or.inr ⟨rfl, rfl⟩)⟩
      simp [List.all_cons, isB64AlphaChar_getD]
  | case3 a b =>
      refine ⟨[b64Alphabet.getD (a / 4) 'A', b64Alphabet.getD (a % 4 * 16 + b / 16) 'A',
        b64Alphabet.getD (b % 16 * 4) 'A'], ['='], rfl, ?_, Or.inr (Or.inl ⟨rfl, rfl⟩)⟩
      simp [List.all_cons, isB64AlphaChar_getD]
  | case4 a b c rest ih =>
      obtain ⟨w', pads, heq, hall, hres⟩ := ih
      refine ⟨b64Alphabet.getD (a / 4) 'A'
          :: b64Alphabet.getD (a % 4 * 16 + b / 16) 'A'
          :: b64Alphabet.getD (b % 16 * 4 + c / 64) 'A'
          :: b64Alphabet.getD (c % 64) 'A' :: w', pads, ?_, ?_, ?_⟩
      · simp [b64EncodeBytes, heq]
      · simp [List.all_cons, isB64AlphaChar_getD, hall]
      · have hlen : (b64Alphabet.getD (a / 4) 'A'
            :: b64Alphabet.getD (a % 4 * 16 + b / 16) 'A'
            :: b64Alphabet.getD (b % 16 * 4 + c / 64) 'A'
            :: b64Alphabet.getD (c % 64) 'A' :: w').length = 4 + w'.length := by
          simp; omega
        rcases hres with ⟨hp, hm⟩ | ⟨hp, hm⟩ | ⟨hp, hm⟩
        · exact Or.inl ⟨hp, by rw [hlen]; omega⟩
        · exact Or.inr (Or.inl ⟨hp, by rw [hlen]; omega⟩)
        · exact Or.inr (Or.inr ⟨hp, by rw [hlen]; omega⟩)

/-- `takeWhile (· != '=')` on data-plus-pads recovers the data part. -/
theorem b64_takeWhile_data {w pads : List Char}
    (hw : w.all isB64AlphaChar = true)
    (hp : pads.all (fun c => c == '=') = true) :
    (w ++ pads).takeWhile (fun c => c != '=') = w := by
  induction w with
  | nil =>
      cases pads with
      | nil => rfl
      | cons c t =>
          simp only [List.all_cons, Bool.and_eq_true, beq_iff_eq] at hp
          simp [List.nil_append, List.takeWhile_cons, hp.1]
  | cons a w' ih =>
      simp only [List.all_cons, Bool.and_eq_true] at hw
      have hane : a ≠ '=' := by
        intro h
        rw [h] at hw
        exact absurd hw.1 (by decide)
      have hne : (a != '=') = true := by simpa [bne_iff_ne] using hane
      simp [List.takeWhile_cons, hne, ih hw.2]

/-- Any string of base64 data characters followed by the matching pad
run passes `validate_base64`. -/
theorem validate_base64_of_shape {w pads : List Char}
    (hne : w ≠ [])
    (hall : w.all isB64AlphaChar = true)
    (hres : (pads = [] ∧ w.length % 4 = 0)
            ∨ (pads = ['='] ∧ w.length % 4 = 3)
            ∨ (pads = ['=', '='] ∧ w.length % 4 = 2)) :
    validate_base64 (w ++ pads) = true := by
  have hpads : pads.all (fun c => c == '=') = true := by
    rcases hres with ⟨rfl, _⟩ | ⟨rfl, _⟩ | ⟨rfl, _⟩ <;> decide
  have hallpat : (w ++ pads).all isB64PatternChar = true := by
    simp only [List.all_append, Bool.and_eq_true]
    refine ⟨?_, ?_⟩
    · exact List.all_eq_true.mpr fun c hc =>
        isB64PatternChar_of_alpha ((List.all_eq_true.mp hall) c hc)
    · exact List.all_eq_true.mpr fun c hc => by
        have := (List.all_eq_true.mp hpads) c hc
        simp only [beq_iff_eq] at this
        rw [this]; decide
  have hmatch : reB64Match (w ++ pads) = true := by
    refine reB64Match_of_all ?_ hallpat
    intro habs
    exact hne (List.append_eq_nil.mp habs).1
  have htake : (w ++ pads).takeWhile (fun c => c != '=') = w :=
    b64_takeWhile_data hall hpads
  have hdrop : (w ++ pads).drop w.length = pads := List.drop_left w pads
  have hdecode : (pyB64DecodeStrict (w ++ pads)).isSome = true := by
    rw [pyB64DecodeStrict]
    simp only [hallpat, if_true, htake, hdrop, hpads, if_true]
    rcases hres with ⟨rfl, hm⟩ | ⟨rfl, hm⟩ | ⟨rfl, hm⟩
    · simp [hne, hm]
    · have h3 : ¬ w.length % 4 = 0 := by omega
      have h2 : ¬ (w.length % 4 = 2 ∧ ([('=' : Char)].length) = 2) := by simp
      simp [hne, h3, hm]
    · have h3 : ¬ w.length % 4 = 0 := by omega
      simp [hne, h3, hm]
  rw [validate_base64]
  simp [hmatch, hdecode]

/-- **C3 (amended).** `validate_base64` checks base64 syntax only: the
base64 encoding of ANY nonempty byte string is accepted, with no
inspection of the decoded bytes (in particular no PNG magic-signature
check). -/
theorem c3_amended (bytes : List Nat) (h : bytes ≠ []) :
    validate_base64 (b64EncodeBytes bytes) = true := by
  obtain ⟨w, pads, heq, hall, hres⟩ := b64EncodeBytes_shape bytes
  have hwne : w ≠ [] := by
    intro hw
    subst hw
    rcases hres with ⟨rfl, _⟩ | ⟨_, hm⟩ | ⟨_, hm⟩
    · cases bytes with
      | nil => exact h rfl
      | cons a rest =>
          cases rest with
          | nil => simp [b64EncodeBytes] at heq
          | cons b rest' =>
              cases rest' with
              | nil => simp [b64EncodeBytes] at heq
              | cons c rest'' => simp [b64EncodeBytes] at heq
    · simp at hm
    · simp at hm
  rw [heq]
  exact validate_base64_of_shape hwne hall hres

/-- Witness for `c3_amended`: the bytes of `"hello"` encode to
`"aGVsbG8="`, which `validate_base64` accepts although they are not a
PNG. -/
theorem c3_witness :
    b64EncodeBytes [104, 101, 108, 108, 111] = "aGVsbG8=".data
    ∧ validate_base64 (b64EncodeBytes [104, 101, 108, 108, 111]) = true := by
  exact ⟨by decide, c3_amended [104, 101, 108, 108, 111] (by decide)⟩

/-- **C3 (counterexample).** The claim demands that `validate_base64`
accept only base64 whose decoded bytes start with the PNG signature.
`"aGVsbG8="` (base64 of `"hello"`) is accepted, yet its decoded bytes do
not start with the PNG signature — the code never looks at the decoded
content. -/
theorem c3_counterexample :
    validate_base64 "aGVsbG8=".data = true
    ∧ pyB64DecodeStrict "aGVsbG8=".data = some [104, 101, 108, 108, 111]
    ∧ pngSignature.isPrefixOf [104, 101, 108, 108, 111] = false := by
  decide

/-! ### Equation scanner (`utils/latex_utils.py`, `find_latex_equations`)

The five patterns are all of the form `opener(.*?)closer` with literal
delimiter strings, compiled with `re.DOTALL`.  `re.finditer` semantics
for such a pattern: at each candidate position, the pattern matches iff
the opener is present there and the closer occurs somewhere after it;
the non-greedy group takes everything up to the EARLIEST closer
occurrence; scanning resumes after a match (non-overlapping), or one
position further on failure. -/

/-- One regex match: span `[start, stop)`, the whole match (`group(0)`)
and the inner group (`group(1)`). -/
structure PyMatch where
  start : Nat
  stop : Nat
  group0 : List Char
  group1 : List Char
deriving DecidableEq

/-- Index (≥ `i`) of the first occurrence of `needle` in the suffix `s`
of the subject, where `s` starts at absolute position `i`. -/
def firstOccFrom (needle : List Char) : List Char → Nat → Option Nat
  | [], i => if needle.isPrefixOf [] then some i else none
  | s@(_ :: t), i =>
      if needle.isPrefixOf s then some i else firstOccFrom needle t (i + 1)

/-- `re.finditer` for `opener(.*?)closer` with `re.DOTALL`, scanning
from position `i`; `fuel` bounds the number of candidate positions
(`text.length + 1` suffices from position 0). -/
def pyFindIterAux (opener closer text : List Char) : Nat → Nat → List PyMatch
  | 0, _ => []
  | fuel + 1, i =>
    if opener.isPrefixOf (text.drop i) then
      match firstOccFrom closer (text.drop (i + opener.length)) (i + opener.length) with
      | some j =>
          { start := i, stop := j + closer.length,
            group0 := (text.drop i).take (j + closer.length - i),
            group1 := (text.drop (i + opener.length)).take (j - (i + opener.length)) }
            :: pyFindIterAux opener closer text fuel (j + closer.length)
      | none =>
          if i < text.length then pyFindIterAux opener closer text fuel (i + 1) else []
    else
      if i < text.length then pyFindIterAux opener closer text fuel (i + 1) else []

/-- All matches of `opener(.*?)closer` in `text`, in order. -/
def pyFindIter (opener closer text : List Char) : List PyMatch :=
  pyFindIterAux opener closer text (text.length + 1) 0

/-- Python `str.strip()` whitespace (ASCII part). -/
def pyIsSpace (c : Char) : Bool :=
  c == ' ' || c == '\t' || c == '\n' || c == '\r' || c == '\x0b' || c == '\x0c'

/-- Python `str.strip()`. -/
def pyStrip (s : List Char) : List Char :=
  ((s.dropWhile pyIsSpace).reverse.dropWhile pyIsSpace).reverse

/-- One entry of the scanner's `matches` list.  The Python dict fields
`start`/`end`/`equation`/`is_display`/`raw_match` become
`start`/`stop`/`equation`/`isDisplay`/`rawMatch` (`end` is reserved). -/
structure LatexMatch where
  start : Nat
  stop : Nat
  equation : List Char
  isDisplay : Bool
  rawMatch : List Char
deriving DecidableEq

/-- `cleaned_equation = equation.replace('\n', ' ').strip()`. -/
def cleanEquation (equation : List Char) : List Char :=
  pyStrip (equation.map fun c => if c = '\n' then ' ' else c)

/-- Build the stored match entry from a raw regex match. -/
def latexEntry (isDisp : Bool) (m : PyMatch) : LatexMatch :=
  { start := m.start, stop := m.stop,
    equation := cleanEquation (pyStrip m.group1),
    isDisplay := isDisp, rawMatch := m.group0 }

/-- Matches of one grammar that pass the `if equation:` acceptance test
(`equation = match.group(1).strip()` nonempty). -/
def patternEntries (opener closer : List Char) (isDisp : Bool) (text : List Char) :
    List LatexMatch :=
  (pyFindIter opener closer text).filterMap fun m =>
    if pyStrip m.group1 ≠ [] then some (latexEntry isDisp m) else none

/-- The five grammars, in source order: `\[...\]` (display),
`\(...\)` (inline), `$$...$$` (display), `$...$` (inline),
`\begin{equation}...\end{equation}` (display). -/
def latexGrammars : List ((List Char × List Char) × Bool) :=
  [(("\\[".data, "\\]".data), true),
   (("\\(".data, "\\)".data), false),
   (("$$".data, "$$".data), true),
   (("$".data, "$".data), false),
   (("\\begin{equation}".data, "\\end{equation}".data), true)]

/-- Result of `find_latex_equations`: the positionally aligned
`equations` and `matches` lists. -/
structure ScanResult where
  equations : List (List Char)
  /-- The source dict key is `matches` (a reserved word here). -/
  matchList : List LatexMatch
deriving DecidableEq

/-- `find_latex_equations` (latex_utils.py:42-83): pool the accepted
matches of the five grammars, sort by `start`, and read the equation
list back off the sorted matches.  Python's `list.sort` is stable;
`List.insertionSort` under the non-strict key order is also stable, so
it computes the same list. -/
def find_latex_equations (text : List Char) : ScanResult :=
  if text = [] then ⟨[], []⟩
  else
    let pool := (latexGrammars.map fun g => patternEntries g.1.1 g.1.2 g.2 text).flatten
    let sorted := pool.insertionSort fun a b => a.start ≤ b.start
    ⟨sorted.map (·.equation), sorted⟩

/-! Scanner lemmas. -/

theorem firstOccFrom_ge (needle : List Char) :
    ∀ (s : List Char) (i j : Nat), firstOccFrom needle s i = some j → i ≤ j := by
  intro s
  induction s with
  | nil =>
      intro i j h
      simp only [firstOccFrom] at h
      split at h
      · have := Option.some.inj h; omega
      · cases h
  | cons a t ih =>
      intro i j h
      simp only [firstOccFrom] at h
      split at h
      · have := Option.some.inj h; omega
      · have := ih (i + 1) j h; omega

theorem pyFindIterAux_start_lt_stop {opener closer text : List Char}
    (hop : opener ≠ []) :
    ∀ (fuel i : Nat) (m : PyMatch),
      m ∈ pyFindIterAux opener closer text fuel i → m.start < m.stop := by
  intro fuel
  induction fuel with
  | zero => intro i m h; cases h
  | succ fuel ih =>
      intro i m h
      simp only [pyFindIterAux] at h
      by_cases hpre : opener.isPrefixOf (text.drop i)
      · rw [if_pos hpre] at h
        cases hocc : firstOccFrom closer (text.drop (i + opener.length))
            (i + opener.length) with
        | none =>
            rw [hocc] at h
            by_cases hlt : i < text.length
            · rw [if_pos hlt] at h; exact ih (i + 1) m h
            · rw [if_neg hlt] at h; cases h
        | some j =>
            rw [hocc] at h
            rcases List.mem_cons.mp h with rfl | htail
            · have hj := firstOccFrom_ge closer (text.drop (i + opener.length))
                (i + opener.length) j hocc
              have h1 : 0 < opener.length := List.length_pos.mpr hop
              show i < j + closer.length
              omega
            · exact ih _ m htail
      · rw [if_neg hpre] at h
        by_cases hlt : i < text.length
        · rw [if_pos hlt] at h; exact ih (i + 1) m h
        · rw [if_neg hlt] at h; cases h

/-- Every grammar has nonempty delimiters. -/
theorem latexGrammars_nonempty :
    ∀ g ∈ latexGrammars, g.1.1 ≠ [] ∧ g.1.2 ≠ [] := by decide

/-- Membership characterization of the scanner's output: an entry is in
`matches` iff some grammar produced a raw regex match whose stripped
inner group is nonempty and the entry is built from it. -/
theorem mem_find_latex_matches {text : List Char} {m : LatexMatch} :
    m ∈ (find_latex_equations text).matchList ↔
      (text ≠ [] ∧ ∃ g ∈ latexGrammars, ∃ r ∈ pyFindIter g.1.1 g.1.2 text,
        pyStrip r.group1 ≠ [] ∧ m = latexEntry g.2 r) := by
  by_cases htext : text = []
  · subst htext
    simp [find_latex_equations]
  · simp only [find_latex_equations, htext, if_neg, ite_false, ne_eq,
      not_false_eq_true, true_and]
    rw [(List.perm_insertionSort _ _).mem_iff, List.mem_flatten]
    constructor
    · rintro ⟨l, hl, hm⟩
      obtain ⟨g, hg, rfl⟩ := List.mem_map.mp hl
      obtain ⟨r, hr, hsome⟩ := List.mem_filterMap.mp hm
      by_cases hstrip : pyStrip r.group1 ≠ []
      · rw [if_pos hstrip] at hsome
        exact ⟨g, hg, r, hr, hstrip, (Option.some.inj hsome).symm⟩
      · rw [if_neg hstrip] at hsome; cases hsome
    · rintro ⟨g, hg, r, hr, hstrip, rfl⟩
      refine ⟨patternEntries g.1.1 g.1.2 g.2 text, List.mem_map.mpr ⟨g, hg, rfl⟩, ?_⟩
      exact List.mem_filterMap.mpr ⟨r, hr, by rw [if_pos hstrip]⟩

/-- **C4 (confirmed).** For every text, the scanner's `matches` list is
sorted ascending by `start`, and every match has `start < stop`. -/
theorem c4_scan_sorted (text : List Char) :
    ((find_latex_equations text).matchList).Pairwise (fun a b => a.start ≤ b.start)
    ∧ ∀ m ∈ (find_latex_equations text).matchList, m.start < m.stop := by
  constructor
  · by_cases htext : text = []
    · subst htext; simp [find_latex_equations]
    · simp only [find_latex_equations, htext, ite_false]
      haveI : IsTotal LatexMatch (fun a b => a.start ≤ b.start) :=
        ⟨fun a b => Nat.le_total a.start b.start⟩
      haveI : IsTrans LatexMatch (fun a b => a.start ≤ b.start) :=
        ⟨fun a b c h1 h2 => Nat.le_trans h1 h2⟩
      exact List.sorted_insertionSort (fun a b => a.start ≤ b.start)
        ((latexGrammars.map fun g => patternEntries g.1.1 g.1.2 g.2 text).flatten)
  · intro m hm
    obtain ⟨-, g, hg, r, hr, -, rfl⟩ := mem_find_latex_matches.mp hm
    have hop := (latexGrammars_nonempty g hg).1
    exact pyFindIterAux_start_lt_stop hop _ 0 r hr

/-- Witness for `c4_scan_sorted`: on `"$a$"` the single match
`[0, 3)` satisfies `start < stop`. -/
theorem c4_witness :
    (⟨0, 3, ['a'], false, "$a$".data⟩ : LatexMatch).start
      < (⟨0, 3, ['a'], false, "$a$".data⟩ : LatexMatch).stop :=
  (c4_scan_sorted "$a$".data).2 _ (by decide)

/-- **C5 (counterexample).** The claim says a match whose trimmed inner
content is a single backslash is degenerate and not accepted.  On the
text `"$\$"` the `$...$` grammar matches with inner content `"\"`, and
the scanner accepts it — the code only tests that the stripped group is
nonempty. -/
theorem c5_counterexample :
    ¬ (∀ m ∈ (find_latex_equations "$\\$".data).matchList, m.equation ≠ ['\\']) := by
  decide

/-- **C5 (amended).** Within each grammar, a raw regex match is accepted
by the scanner iff its trimmed inner content is nonempty (so
whitespace-only content is rejected); there is no further degeneracy
test — in particular a single backslash is accepted. -/
theorem c5_acceptance (text : List Char) (m : LatexMatch) :
    m ∈ (find_latex_equations text).matchList ↔
      (text ≠ [] ∧ ∃ g ∈ latexGrammars, ∃ r ∈ pyFindIter g.1.1 g.1.2 text,
        pyStrip r.group1 ≠ [] ∧ m = latexEntry g.2 r) :=
  mem_find_latex_matches

/-! ### Fragment composer (`gui/app_gui.py`, `copy_images`)

`html_content` is a string built by successive `+=`; it is modelled as
the ordered list of appended pieces (`Run`s).  `Run.text s` stands for
`<span>{s}</span>` with `s` already escaped, `Run.image b` for the
`<img src="data:image/png;base64,{b}" ...>` tag whose only variable
part is the base64 payload `b`, `Run.br` for `'<br>'`, and `Run.style`
for the CSS style block.  The callers
(`render_input_text`, `test_render`, `monitor_clipboard`) append an
image to `images` only when the render returned one, so a failed render
contributes no element to `images`. -/

/-- `html.escape(c)` with the default `quote=True`. -/
def pyHtmlEscapeChar (c : Char) : List Char :=
  if c = '&' then "&amp;".data
  else if c = '<' then "&lt;".data
  else if c = '>' then "&gt;".data
  else if c = '"' then "&quot;".data
  else if c = Char.ofNat 39 then "&#x27;".data
  else [c]

/-- `html.escape(s)`. -/
def pyHtmlEscape : List Char → List Char
  | [] => []
  | c :: rest => pyHtmlEscapeChar c ++ pyHtmlEscape rest

/-- `str.replace('\r\n', '<br>')`: left-to-right, non-overlapping. -/
def replaceCrlfBr : List Char → List Char
  | '\r' :: '\n' :: rest => "<br>".data ++ replaceCrlfBr rest
  | c :: rest => c :: replaceCrlfBr rest
  | [] => []

/-- `str.replace('\n', '<br>')`. -/
def replaceLfBr : List Char → List Char
  | '\n' :: rest => "<br>".data ++ replaceLfBr rest
  | c :: rest => c :: replaceLfBr rest
  | [] => []

/-- `html.escape(seg).replace('\r\n', '<br>').replace('\n', '<br>')`
(app_gui.py:599, 605). -/
def escapeSegment (s : List Char) : List Char :=
  replaceLfBr (replaceCrlfBr (pyHtmlEscape s))

/-- Python slice `s[a:b]` for 0 ≤ a ≤ b (empty when a ≥ b). -/
def pySlice (s : List Char) (a b : Nat) : List Char := (s.drop a).take (b - a)

/-- Python slice `s[a:]`. -/
def pySliceFrom (s : List Char) (a : Nat) : List Char := s.drop a

/-- One piece appended to `html_content`. -/
inductive Run where
  | style : List Char → Run
  | text : List Char → Run
  | image : List Char → Run
  | br : Run
deriving DecidableEq

/-- The CSS style block (app_gui.py:511-527), a concatenation of
adjacent string literals with `text_color` and `font_size`
interpolated. -/
def styleCss (textColor : List Char) (fontSize : Nat) : List Char :=
  "<style>body \x7b  color: ".data ++ textColor
    ++ ";  font-family: Arial, sans-serif;  font-size: ".data
    ++ (toString fontSize).data
    ++ "pt;  line-height: 1.5;\x7dp, div, span \x7b  color: ".data ++ textColor
    ++ " !important;\x7dimg \x7b  vertical-align: middle;  margin: 2px 0;\x7d</style>".data

/-- `valid_colors` (app_gui.py:505). -/
def validColors : List (List Char) :=
  ["white".data, "black".data, "red".data, "blue".data, "green".data,
   "yellow".data, "purple".data, "orange".data]

def noValidImagesMsg : List Char := "No valid images".data

/-- Status `f"Copied {n} images"`. -/
def copiedImagesMsg (n : Nat) : List Char :=
  "Copied ".data ++ (toString n).data ++ " images".data

/-- Status `f"Copied {n} images with text"`. -/
def copiedWithTextMsg (n : Nat) : List Char :=
  "Copied ".data ++ (toString n).data ++ " images with text".data

/-- The fallback loop (app_gui.py:535-551), taken when no match list is
available: skip `None` and empty images, then require `validate_base64`
of the encoding; returns the emitted image runs and the images appended
to `self.last_images`. -/
def branch1Process : List (Option Bitmap) → List Run × List Bitmap
  | [] => ([], [])
  | none :: rest => branch1Process rest
  | some img :: rest =>
      if is_image_empty img then branch1Process rest
      else
        if validate_base64 (b64EncodeBytes (image_to_bytes img)) then
          (Run.image (b64EncodeBytes (image_to_bytes img)) :: (branch1Process rest).1,
            img :: (branch1Process rest).2)
        else branch1Process rest

/-- The validation loop (app_gui.py:562-585): skip `None`, empty and
zero-dimension images and those whose base64 fails validation; the
survivors (`valid_images` paired with `valid_b64_data`) in order. -/
def validImagePairs : List (Option Bitmap) → List (Bitmap × List Char)
  | [] => []
  | none :: rest => validImagePairs rest
  | some img :: rest =>
      if is_image_empty img then validImagePairs rest
      else if img.width = 0 ∨ img.height = 0 then validImagePairs rest
      else
        if validate_base64 (b64EncodeBytes (image_to_bytes img)) then
          (img, b64EncodeBytes (image_to_bytes img)) :: validImagePairs rest
        else validImagePairs rest

/-- The composition loop (app_gui.py:594-606): for each match emit the
escaped preceding text segment, then the next surviving image (if any
is left), advancing `last_pos` to the match end; finally emit the
escaped tail.  Note the images are consumed positionally from the
front, not matched up with the spans they came from. -/
def composeLoop (text : List Char) :
    List LatexMatch → List (List Char) → Nat → List Run
  | [], _, lastPos => [Run.text (escapeSegment (pySliceFrom text lastPos))]
  | m :: rest, b64s, lastPos =>
      Run.text (escapeSegment (pySlice text lastPos m.start)) ::
        match b64s with
        | [] => composeLoop text rest [] m.stop
        | b :: bs => Run.image b :: composeLoop text rest bs m.stop

/-- The no-text loop (app_gui.py:607-630): like the validation loop but
emitting the image runs directly, with a `<br>` after each image whose
(original) index is not the last of `images`. -/
def noTextProcess (total : Nat) : List (Option Bitmap) → Nat → List Run × List Bitmap
  | [], _ => ([], [])
  | none :: rest, i => noTextProcess total rest (i + 1)
  | some img :: rest, i =>
      if is_image_empty img then noTextProcess total rest (i + 1)
      else if img.width = 0 ∨ img.height = 0 then noTextProcess total rest (i + 1)
      else
        if validate_base64 (b64EncodeBytes (image_to_bytes img)) then
          (Run.image (b64EncodeBytes (image_to_bytes img))
              :: (if i < total - 1 then [Run.br] else [])
              ++ (noTextProcess total rest (i + 1)).1,
            img :: (noTextProcess total rest (i + 1)).2)
        else noTextProcess total rest (i + 1)

/-- Outcome of one `copy_images` call: the pieces of `html_content` in
order, `self.last_images`, whether `set_clipboard_html` was invoked,
and the status message set (clipboard backend success assumed). -/
structure CopyResult where
  runs : List Run
  lastImages : List Bitmap
  clipboardSet : Bool
  status : Option (List Char)
deriving DecidableEq

/-- The `text_color` actually used: invalid colors fall back to
`"black"` (app_gui.py:505-508). -/
def copyColor (textColor : List Char) : List Char :=
  if validColors.contains textColor then textColor else "black".data

/-- The style `Run` prepended to every `html_content`. -/
def copyStyleRun (textColor : List Char) (fontSize : Nat) : Run :=
  Run.style (styleCss (copyColor textColor) fontSize)

/-- `copy_images` (app_gui.py:491-642).  `matchList` is
`equations['matches']` (`[]` both for `equations=None` and for an empty
match list, as in `if not equations or not equations.get('matches')`);
`originalText ≠ []` is the truthiness of `original_text`. -/
def copy_images (images : List (Option Bitmap)) (testMode : Bool)
    (originalText : List Char) (matchList : List LatexMatch)
    (onlyImages : Bool) (textColor : List Char) (fontSize : Nat) : CopyResult :=
  if images = [] then ⟨[], [], false, none⟩
  else if testMode = true ∨ originalText ≠ [] then
    if matchList = [] then
      if (branch1Process images).2 ≠ [] then
        ⟨copyStyleRun textColor fontSize :: (branch1Process images).1,
          (branch1Process images).2, true,
          some (copiedImagesMsg (branch1Process images).2.length)⟩
      else
        ⟨copyStyleRun textColor fontSize :: (branch1Process images).1,
          (branch1Process images).2, false, none⟩
    else
      if validImagePairs images = [] then
        ⟨[copyStyleRun textColor fontSize], [], false, some noValidImagesMsg⟩
      else
        ⟨copyStyleRun textColor fontSize ::
            (if onlyImages then (validImagePairs images).map fun p => Run.image p.2
             else composeLoop originalText matchList
               ((validImagePairs images).map fun p => p.2) 0),
          (validImagePairs images).map fun p => p.1, true,
          some (copiedWithTextMsg ((validImagePairs images).map fun p => p.1).length)⟩
  else
    if (noTextProcess images.length images 0).2 ≠ [] then
      ⟨copyStyleRun textColor fontSize :: (noTextProcess images.length images 0).1,
        (noTextProcess images.length images 0).2, true,
        some (copiedWithTextMsg (noTextProcess images.length images 0).2.length)⟩
    else
      ⟨copyStyleRun textColor fontSize :: (noTextProcess images.length images 0).1,
        (noTextProcess images.length images 0).2, false, some noValidImagesMsg⟩

/-- A 50×20 bitmap with 100 opaque pixels whose PNG serialization is the
8-byte PNG signature; it survives every validation step, with base64
payload `"iVBORw0KGgo="`. -/
def sampleBitmap : Bitmap :=
  ⟨50, 20, List.replicate 100 (255, 255, 255, 255), pngSignature⟩

/-- The base64 payload of `sampleBitmap`. -/
def sampleB64 : List Char := "iVBORw0KGgo=".data

/-- An image that fails validation: no pixels (hence `is_image_empty`)
and an empty PNG byte string. -/
def invalidBitmap : Bitmap := ⟨10, 10, [], []⟩

/-! ### C2, C8, C9 theorems -/

/-- The C2 scenario text `"\[x\] \[y\]"`. -/
def c2Text : List Char := "\\[x\\] \\[y\\]".data

set_option maxRecDepth 65536 in
/-- **C2 (counterexample).** For `"\[x\] \[y\]"` with the first render
failed (so `images` holds only the second image), the claim expects the
run sequence `[TextRun(""), ImageRun(y), TextRun("")]`.  The code
produces `[Style, TextRun(""), ImageRun(y), TextRun(" "), TextRun("")]`
instead: the surviving image is emitted at the FIRST (failed) span's
position and the inter-span text `" "` survives as its own run. -/
theorem c2_counterexample :
    (copy_images [some sampleBitmap] false c2Text
        (find_latex_equations c2Text).matchList false "white".data 12).runs
      ≠ [Run.text [], Run.image sampleB64, Run.text []] := by
  decide

set_option maxRecDepth 65536 in
/-- **C2 (amended).** On `"\[x\] \[y\]"` with only the second span's
image surviving, `copy_images` (non-`only_images`) emits the style
block, then `TextRun("")`, then the surviving image at the first span's
position, then `TextRun(" ")` for the text between the spans, then a
final `TextRun("")`.  No raw markup appears in any run. -/
theorem c2_amended :
    (copy_images [some sampleBitmap] false c2Text
        (find_latex_equations c2Text).matchList false "white".data 12).runs
      = [Run.style (styleCss "white".data 12), Run.text [], Run.image sampleB64,
         Run.text [' '], Run.text []] := by
  decide

/-- The fallback loop emits no text runs. -/
theorem branch1Process_no_text (images : List (Option Bitmap)) :
    ∀ s, Run.text s ∉ (branch1Process images).1 := by
  induction images with
  | nil => intro s h; cases h
  | cons img rest ih =>
      intro s h
      cases img with
      | none => exact ih s h
      | some b =>
          simp only [branch1Process] at h
          by_cases he : is_image_empty b = true
          · rw [if_pos he] at h; exact ih s h
          · rw [if_neg he] at h
            by_cases hv : validate_base64 (b64EncodeBytes (image_to_bytes b)) = true
            · rw [if_pos hv] at h
              rcases List.mem_cons.mp h with heq | h'
              · exact Run.noConfusion heq
              · exact ih s h'
            · rw [if_neg hv] at h; exact ih s h

set_option maxRecDepth 65536 in
/-- **C8 (counterexample).** On text `"hello"` with zero matches and a
valid image, the claim expects the whole escaped text as a single
`TextRun`.  The code's fallback branch emits only the style block and
the image run — the escaped text run is absent and the original text is
dropped entirely. -/
theorem c8_counterexample :
    (copy_images [some sampleBitmap] false "hello".data [] false
        "white".data 12).runs
      = [Run.style (styleCss "white".data 12), Run.image sampleB64]
    ∧ Run.text (escapeSegment "hello".data)
      ∉ (copy_images [some sampleBitmap] false "hello".data [] false
          "white".data 12).runs := by
  decide

/-- **C8 (amended).** Whenever the match list is empty (scanner found
nothing) and text is present (or `test_mode`), `copy_images` emits the
style block followed only by the image runs of the validated images:
no text run at all is produced and the original text is discarded. -/
theorem c8_amended (images : List (Option Bitmap)) (testMode : Bool)
    (text textColor : List Char) (onlyImages : Bool) (fontSize : Nat)
    (hne : images ≠ []) (hbranch : testMode = true ∨ text ≠ []) :
    (copy_images images testMode text [] onlyImages textColor fontSize).runs
      = copyStyleRun textColor fontSize :: (branch1Process images).1
    ∧ ∀ s, Run.text s
        ∉ (copy_images images testMode text [] onlyImages textColor fontSize).runs := by
  have hruns : (copy_images images testMode text [] onlyImages textColor fontSize).runs
      = copyStyleRun textColor fontSize :: (branch1Process images).1 := by
    unfold copy_images
    rw [if_neg hne, if_pos hbranch, if_pos rfl]
    split
    · rfl
    · rfl
  refine ⟨hruns, ?_⟩
  intro s hmem
  rw [hruns] at hmem
  rcases List.mem_cons.mp hmem with heq | hmem'
  · exact Run.noConfusion heq
  · exact branch1Process_no_text images s hmem'

/-- Witness for `c8_amended`: concrete instance on `"hi"` with one valid
image. -/
theorem c8_witness :
    (copy_images [some sampleBitmap] false "hi".data [] false
        "white".data 12).runs
      = copyStyleRun "white".data 12 :: (branch1Process [some sampleBitmap]).1 :=
  (c8_amended [some sampleBitmap] false "hi".data "white".data false 12
    (by decide) (by decide)).1

set_option maxRecDepth 65536 in
/-- **C9 (counterexample).** The claim says every copy invocation in
which no image survives validation reports a distinct "no valid
images" outcome.  In the fallback branch (no match list), with one
invalid image, the code returns silently: the clipboard is untouched
(that part holds) but NO status is reported at all. -/
theorem c9_counterexample :
    (copy_images [some invalidBitmap] true [] [] false "white".data 12).clipboardSet
        = false
    ∧ (copy_images [some invalidBitmap] true [] [] false "white".data 12).status
        = none := by
  decide

/-- The no-text loop appends exactly the validation survivors to
`self.last_images`. -/
theorem noTextProcess_lastImages (total : Nat) (images : List (Option Bitmap)) :
    ∀ i, (noTextProcess total images i).2 = (validImagePairs images).map fun p => p.1 := by
  induction images with
  | nil => intro i; rfl
  | cons img rest ih =>
      intro i
      cases img with
      | none => simp only [noTextProcess, validImagePairs]; exact ih (i + 1)
      | some b =>
          simp only [noTextProcess, validImagePairs]
          by_cases h1 : is_image_empty b = true
          · rw [if_pos h1, if_pos h1]; exact ih (i + 1)
          · rw [if_neg h1, if_neg h1]
            by_cases h2 : b.width = 0 ∨ b.height = 0
            · rw [if_pos h2, if_pos h2]; exact ih (i + 1)
            · rw [if_neg h2, if_neg h2]
              by_cases h3 : validate_base64 (b64EncodeBytes (image_to_bytes b)) = true
              · rw [if_pos h3, if_pos h3]
                simp only [List.map_cons]
                rw [ih (i + 1)]
              · rw [if_neg h3, if_neg h3]; exact ih (i + 1)

/-- **C9 (amended).** When no image survives validation,
`set_clipboard_html` is never invoked (in every branch).  The distinct
`"No valid images"` status is reported on the path with a match list
present and on the no-text path, but the fallback branch (text present,
no match list) aborts silently with no status. -/
theorem c9_amended (images : List (Option Bitmap)) (testMode : Bool)
    (originalText : List Char) (matchList : List LatexMatch)
    (onlyImages : Bool) (textColor : List Char) (fontSize : Nat)
    (h1 : branch1Process images = ([], []))
    (h2 : validImagePairs images = []) :
    (copy_images images testMode originalText matchList onlyImages
        textColor fontSize).clipboardSet = false
    ∧ ((testMode = true ∨ originalText ≠ []) → matchList ≠ [] → images ≠ [] →
        (copy_images images testMode originalText matchList onlyImages
          textColor fontSize).status = some noValidImagesMsg)
    ∧ (¬ (testMode = true ∨ originalText ≠ []) → images ≠ [] →
        (copy_images images testMode originalText matchList onlyImages
          textColor fontSize).status = some noValidImagesMsg) := by
  by_cases hne : images = []
  · subst hne
    refine ⟨rfl, fun _ _ h => absurd rfl h, fun _ h => absurd rfl h⟩
  · by_cases hb : testMode = true ∨ originalText ≠ []
    · by_cases hm : matchList = []
      · subst hm
        have hres : copy_images images testMode originalText [] onlyImages
            textColor fontSize
            = ⟨copyStyleRun textColor fontSize :: (branch1Process images).1,
              (branch1Process images).2, false, none⟩ := by
          unfold copy_images
          rw [if_neg hne, if_pos hb, if_pos rfl]
          rw [h1]
          rfl
        rw [hres]
        exact ⟨rfl, fun _ hmne _ => absurd rfl hmne, fun hnb _ => absurd hb hnb⟩
      · have hres : copy_images images testMode originalText matchList onlyImages
            textColor fontSize
            = ⟨[copyStyleRun textColor fontSize], [], false, some noValidImagesMsg⟩ := by
          unfold copy_images
          rw [if_neg hne, if_pos hb, if_neg hm, if_pos h2]
        rw [hres]
        exact ⟨rfl, fun _ _ _ => rfl, fun hnb _ => absurd hb hnb⟩
    · have hzero : (noTextProcess images.length images 0).2 = [] := by
        rw [noTextProcess_lastImages images.length images 0, h2]
        rfl
      have hres : copy_images images testMode originalText matchList onlyImages
          textColor fontSize
          = ⟨copyStyleRun textColor fontSize :: (noTextProcess images.length images 0).1,
            (noTextProcess images.length images 0).2, false, some noValidImagesMsg⟩ := by
        unfold copy_images
        rw [if_neg hne, if_neg hb]
        rw [if_neg (by simpa using hzero)]
      rw [hres]
      exact ⟨rfl, fun hbb _ _ => absurd hbb hb, fun _ _ => rfl⟩

/-- Witness for `c9_amended`: one invalid image on the no-text path
yields the `"No valid images"` status and no clipboard write. -/
theorem c9_witness :
    (copy_images [some invalidBitmap] false [] [] false
        "white".data 12).status = some noValidImagesMsg :=
  (c9_amended [some invalidBitmap] false [] [] false "white".data 12
    (by decide) (by decide)).2.2 (by decide) (by decide)
